import Mathlib

/-!
# benchmark2/template.c

A verification development for the microbenchmark stub `src/benchmark2/template.c`.

The C function `main` is embedded as a state-passing function over a machine state that
holds the word-addressed memory, the trace of events and the automatic variables of the
workload block.  Undefined behaviour of the C abstract machine (signed overflow of a loop
counter, an out-of-range float to int conversion) is a `Fault`.

* `int` is a 32 bit two's-complement integer (`INT_MIN`, `INT_MAX`), `unsigned int` is
  reduced modulo `2 ^ 32`.
* `float` is IEEE 754 binary32 with the default rounding mode (round to nearest, ties to
  even), evaluated in single precision: the arithmetic of the RISC-V F extension.
-/

namespace Benchmark2

/-! ## Machine integers -/

/-- Largest value of the C type `int`. -/
def INT_MAX : Int := 2147483647

/-- Smallest value of the C type `int`. -/
def INT_MIN : Int := -2147483648

/-- Number of values of the C type `unsigned int`. -/
def UINT_RANGE : Nat := 4294967296

/-! ## The C type `float`: IEEE 754 binary32 -/

/-- Values of the C type `float`.  `finite sign mant exp` is `(-1) ^ sign * mant * 2 ^ exp`;
the values produced by rounding are canonical: `2 ^ 23 ≤ mant < 2 ^ 24` and
`-149 ≤ exp ≤ 104` for normal numbers, `mant < 2 ^ 23` and `exp = -149` for zeros and
subnormal numbers. -/
inductive F32 where
  | finite (sign : Bool) (mant : Nat) (exp : Int)
  | inf (sign : Bool)
  | nan
  deriving DecidableEq

/-- Number of binary digits of `n`, computed by repeated halving. -/
def bitLengthAux : Nat → Nat → Nat
  | 0, _ => 0
  | fuel + 1, n => if n = 0 then 0 else bitLengthAux fuel (n / 2) + 1

/-- Number of binary digits of `n` (`0` for `n = 0`). -/
def bitLength (n : Nat) : Nat := bitLengthAux n n

/-- Correct rounding of the rational `(-1) ^ sign * n / d` (with `0 < d`) to binary32,
round to nearest, ties to even, with gradual underflow and overflow to infinity. -/
def roundToF32 (sign : Bool) (n d : Nat) : F32 :=
  if n = 0 then F32.finite sign 0 (-149) else
  let e0 : Int := (bitLength n : Int) - (bitLength d : Int)
  -- here 2 ^ (e0 - 1) < n / d < 2 ^ (e0 + 1)
  let ge : Bool := if 0 ≤ e0 then decide (d * 2 ^ e0.toNat ≤ n) else decide (d ≤ n * 2 ^ (-e0).toNat)
  -- lg = floor (log2 (n / d))
  let lg : Int := if ge then e0 else e0 - 1
  let exp : Int := max (lg - 23) (-149)
  -- n / d = (num / den) * 2 ^ exp
  let num : Nat := if 0 ≤ exp then n else n * 2 ^ (-exp).toNat
  let den : Nat := if 0 ≤ exp then d * 2 ^ exp.toNat else d
  let q : Nat := num / den
  let r : Nat := num % den
  let m : Nat :=
    if 2 * r < den then q
    else if den < 2 * r then q + 1
    else if q % 2 = 0 then q else q + 1
  let m1 : Nat := if m = 2 ^ 24 then 2 ^ 23 else m
  let exp1 : Int := if m = 2 ^ 24 then exp + 1 else exp
  if 104 < exp1 then F32.inf sign else F32.finite sign m1 exp1

namespace F32

/-- Rational value of a finite `float`. -/
def toRat : F32 → Option ℚ
  | finite sign mant exp => some ((if sign then -1 else 1) * (mant : ℚ) * (2 : ℚ) ^ exp)
  | inf _ => none
  | nan => none

/-- Conversion `int → float` (C11 6.3.1.4p2): the nearest binary32 value. -/
def ofInt (z : Int) : F32 := roundToF32 (decide (z < 0)) z.natAbs 1

/-- The C operator `*` on two `float` operands. -/
def mul : F32 → F32 → F32
  | finite s1 m1 e1, finite s2 m2 e2 =>
    let e : Int := e1 + e2
    if 0 ≤ e then roundToF32 (xor s1 s2) (m1 * m2 * 2 ^ e.toNat) 1
    else roundToF32 (xor s1 s2) (m1 * m2) (2 ^ (-e).toNat)
  | finite s1 m1 _, inf s2 => if m1 = 0 then nan else inf (xor s1 s2)
  | inf s1, finite s2 m2 _ => if m2 = 0 then nan else inf (xor s1 s2)
  | inf s1, inf s2 => inf (xor s1 s2)
  | nan, _ => nan
  | _, nan => nan

/-- The C operator `/` on two `float` operands. -/
def div : F32 → F32 → F32
  | finite s1 m1 e1, finite s2 m2 e2 =>
    if m2 = 0 then (if m1 = 0 then nan else inf (xor s1 s2))
    else
      let e : Int := e1 - e2
      if 0 ≤ e then roundToF32 (xor s1 s2) (m1 * 2 ^ e.toNat) m2
      else roundToF32 (xor s1 s2) m1 (m2 * 2 ^ (-e).toNat)
  | finite s1 _ _, inf s2 => finite (xor s1 s2) 0 (-149)
  | inf s1, finite s2 _ _ => inf (xor s1 s2)
  | inf _, inf _ => nan
  | nan, _ => nan
  | _, nan => nan

end F32

/-! ## Faults, events and the machine state -/

/-- Undefined behaviour of the C abstract machine that the program could run into. -/
inductive Fault where
  | signedOverflow
  | floatToIntRange
  deriving DecidableEq

deriving instance DecidableEq for Except

/-- Conversion `float → int` (C11 6.3.1.4p1): truncation toward zero, undefined when the
integral part is not representable in `int`. -/
def F32.toInt : F32 → Except Fault Int
  | F32.finite sign mant exp =>
    let mag : Nat := if 0 ≤ exp then mant * 2 ^ exp.toNat else mant / 2 ^ (-exp).toNat
    let z : Int := if sign then -(mag : Int) else (mag : Int)
    if INT_MIN ≤ z ∧ z ≤ INT_MAX then Except.ok z else Except.error Fault.floatToIntRange
  | F32.inf _ => Except.error Fault.floatToIntRange
  | F32.nan => Except.error Fault.floatToIntRange

/-- The two `for` loops of `main`. -/
inductive Loop where
  | busyWait
  | workload
  deriving DecidableEq

/-- Kinds of the binary arithmetic operators of C, by the type in which the operation is
carried out after the usual arithmetic conversions. -/
inductive ArithOp where
  | intMul
  | intDiv
  | floatMul
  | floatDiv
  deriving DecidableEq

/-- Values of the two arithmetic types used by the program. -/
inductive Value where
  | int (z : Int)
  | float (f : F32)
  deriving DecidableEq

/-- Events of an execution.  `store` and `load` are the accesses to memory, `iter l j` is
the entry into the body of loop `l` with counter `j`, `exit l j` is the failed loop test
with counter `j`, `conv v` is an implicit conversion between `int` and `float` with
result `v`, and `arith op v` is the evaluation of a binary arithmetic operator of kind
`op` with result `v`. -/
inductive Event where
  | store (addr : Nat) (val : Nat)
  | load (addr : Nat)
  | iter (l : Loop) (j : Int)
  | exit (l : Loop) (j : Int)
  | conv (v : Value)
  | arith (op : ArithOp) (v : Value)
  deriving DecidableEq

/-- Machine state: memory as a map from the address of an `unsigned int` object to its
value, the log of events so far (most recent first), and the automatic variables `A`,
`B`, `result` and `fpresult` of the workload block (their storage outlives an iteration,
their content at the entry of an iteration is indeterminate). -/
structure State where
  mem : Nat → Nat
  log : List Event
  A : Int
  B : F32
  result : Int
  fpresult : F32

/-- Events so far, in the order in which they happened. -/
def State.trace (s : State) : List Event := s.log.reverse

/-- Record an event. -/
def State.emit (s : State) (e : Event) : State :=
  match s with
  | State.mk mem log A B result fpresult => State.mk mem (e :: log) A B result fpresult

/-- Assignment to the variable `A`. -/
def State.setA (s : State) (v : Int) : State :=
  match s with
  | State.mk mem log _ B result fpresult => State.mk mem log v B result fpresult

/-- Assignment to the variable `B`. -/
def State.setB (s : State) (v : F32) : State :=
  match s with
  | State.mk mem log A _ result fpresult => State.mk mem log A v result fpresult

/-- Assignment to the variable `result`. -/
def State.setResult (s : State) (v : Int) : State :=
  match s with
  | State.mk mem log A B _ fpresult => State.mk mem log A B v fpresult

/-- Assignment to the variable `fpresult`. -/
def State.setFpresult (s : State) (v : F32) : State :=
  match s with
  | State.mk mem log A B result _ => State.mk mem log A B result v

/-- The assignment `*p = v` through a pointer `p` to `volatile unsigned int`: the stored
value is `v` converted to `unsigned int`. -/
def volatileStore (addr : Nat) (v : Nat) (s : State) : State :=
  match s with
  | State.mk mem log A B result fpresult =>
    State.mk (fun a => if a = addr then v % UINT_RANGE else mem a)
      (Event.store addr (v % UINT_RANGE) :: log) A B result fpresult

/-- Implicit conversion of an `int` operand to `float`. -/
def intToFloat (z : Int) (s : State) : F32 × State :=
  (F32.ofInt z, s.emit (Event.conv (Value.float (F32.ofInt z))))

/-- Implicit conversion of a `float` value to `int` (in an assignment to an `int`). -/
def floatToInt (x : F32) (s : State) : Except Fault (Int × State) :=
  match F32.toInt x with
  | Except.ok z => Except.ok (z, s.emit (Event.conv (Value.int z)))
  | Except.error f => Except.error f

/-- The operator `*` on two `float` operands. -/
def mulFloat (x y : F32) (s : State) : F32 × State :=
  (F32.mul x y, s.emit (Event.arith ArithOp.floatMul (Value.float (F32.mul x y))))

/-- The operator `/` on two `float` operands. -/
def divFloat (x y : F32) (s : State) : F32 × State :=
  (F32.div x y, s.emit (Event.arith ArithOp.floatDiv (Value.float (F32.div x y))))

/-! ## The program -/

/-- The statement `for (int j = ...; j < bound; j++) body`, entered at the loop test with
counter `j`.  Returns the counter at the exit of the loop together with the state. -/
def forLoop (l : Loop) (bound : Int) (body : Int → State → Except Fault State)
    (j : Int) (s : State) : Except Fault (Int × State) :=
  if _h : j < bound then
    match body j (s.emit (Event.iter l j)) with
    | Except.error f => Except.error f
    | Except.ok s1 =>
      if INT_MAX < j + 1 then Except.error Fault.signedOverflow
      else forLoop l bound body (j + 1) s1
  else Except.ok (j, s.emit (Event.exit l j))
termination_by (bound - j).toNat
decreasing_by omega

/-- The empty statement `;`, body of the busy-wait loop. -/
def emptyBody (_j : Int) (s : State) : Except Fault State := Except.ok s

/-- The block that is the body of the workload loop (lines 12 to 23 of the source). -/
def workBody (_j : Int) (s : State) : Except Fault State := do
  -- int A = 1062;
  let s := s.setA 1062
  -- float B = 2653;
  let (b, s) := intToFloat 2653 s
  let s := s.setB b
  -- result = A * B;
  let (a, s) := intToFloat s.A s
  let (p, s) := mulFloat a s.B s
  let (r, s) ← floatToInt p s
  let s := s.setResult r
  -- fpresult = result * B;
  let (a, s) := intToFloat s.result s
  let (p, s) := mulFloat a s.B s
  let s := s.setFpresult p
  -- fpresult = A / B;
  let (a, s) := intToFloat s.A s
  let (p, s) := divFloat a s.B s
  let s := s.setFpresult p
  -- fpresult = 12 * fpresult;
  let (a, s) := intToFloat 12 s
  let (p, s) := mulFloat a s.fpresult s
  let s := s.setFpresult p
  return s

/-- The function `main` of the source: returns the exit status and the final state. -/
def main (s : State) : Except Fault (Int × State) := do
  let gDebugLedsMemoryMappedRegister : Nat := 0x2000
  -- *gDebugLedsMemoryMappedRegister = 0x00;
  let s := volatileStore gDebugLedsMemoryMappedRegister 0x00 s
  -- for (int j = 0; j < 1600000; j++) ;
  let (_, s) ← forLoop Loop.busyWait 1600000 emptyBody 0 s
  -- *gDebugLedsMemoryMappedRegister = 0xFF;
  let s := volatileStore gDebugLedsMemoryMappedRegister 0xFF s
  -- for (int j = 0; j < 100000; j++) { ... }
  let (_, s) ← forLoop Loop.workload 100000 workBody 0 s
  -- *gDebugLedsMemoryMappedRegister = 0x00;
  let s := volatileStore gDebugLedsMemoryMappedRegister 0x00 s
  -- return 0;
  return (0, s)

/-! ## Observations on traces -/

/-- Events recorded between the state `s` and the later state `s1`. -/
def produced (s s1 : State) : List Event := s1.trace.drop s.trace.length

/-- All stores of a trace, as pairs of address and value, in order. -/
def stores (t : List Event) : List (Nat × Nat) :=
  t.filterMap (fun e => match e with
    | Event.store a v => some (a, v)
    | _ => none)

/-- Values stored to the cell at `addr`, in order. -/
def registerWrites (addr : Nat) (t : List Event) : List Nat :=
  t.filterMap (fun e => match e with
    | Event.store a v => if a = addr then some v else none
    | _ => none)

/-- Addresses loaded from, in order. -/
def loads (t : List Event) : List Nat :=
  t.filterMap (fun e => match e with
    | Event.load a => some a
    | _ => none)

/-- Counter values with which the body of loop `l` was entered, in order. -/
def iterCounters (l : Loop) (t : List Event) : List Int :=
  t.filterMap (fun e => match e with
    | Event.iter l1 j => if l1 = l then some j else none
    | _ => none)

/-- Counter values with which loop `l` was left, in order. -/
def exitCounters (l : Loop) (t : List Event) : List Int :=
  t.filterMap (fun e => match e with
    | Event.exit l1 j => if l1 = l then some j else none
    | _ => none)

/-- Binary arithmetic operators evaluated, with their results, in order. -/
def arithEvents (t : List Event) : List (ArithOp × Value) :=
  t.filterMap (fun e => match e with
    | Event.arith op v => some (op, v)
    | _ => none)

/-- Kinds of the binary arithmetic operators evaluated, in order. -/
def arithOps (t : List Event) : List ArithOp := (arithEvents t).map Prod.fst

/-- Results of the conversions to `int`, in order. -/
def intConversions (t : List Event) : List Int :=
  t.filterMap (fun e => match e with
    | Event.conv (Value.int z) => some z
    | _ => none)

/-- Memory obtained from `mem` by carrying out the stores of a trace on plain cells. -/
def replay (mem : Nat → Nat) (t : List Event) : Nat → Nat :=
  t.foldl (fun m e => match e with
    | Event.store a v => fun x => if x = a then v else m x
    | _ => m) mem

/-- Events of one complete run of a `for` loop with `n` iterations from counter `0`, whose
body records the events `evs` in every iteration. -/
def loopTrace (l : Loop) (evs : List Event) (n : Nat) : List Event :=
  (List.range n).flatMap (fun k => Event.iter l (k : Int) :: evs) ++ [Event.exit l (n : Int)]

/-- Events recorded by one execution of the workload block. -/
def iterationEvents : List Event :=
  [ Event.conv (Value.float (F32.finite false 10866688 (-12))),
    Event.conv (Value.float (F32.finite false 8699904 (-13))),
    Event.arith ArithOp.floatMul (Value.float (F32.finite false 11269944 (-2))),
    Event.conv (Value.int 2817486),
    Event.conv (Value.float (F32.finite false 11269944 (-2))),
    Event.arith ArithOp.floatMul (Value.float (F32.finite false 14599200 9)),
    Event.conv (Value.float (F32.finite false 8699904 (-13))),
    Event.arith ArithOp.floatDiv (Value.float (F32.finite false 13431891 (-25))),
    Event.conv (Value.float (F32.finite false 12582912 (-20))),
    Event.arith ArithOp.floatMul (Value.float (F32.finite false 10073918 (-21))) ]

/-- Events of one complete run of `main`. -/
def programTrace : List Event :=
  Event.store 0x2000 0x00 :: loopTrace Loop.busyWait [] 1600000
    ++ Event.store 0x2000 0xFF :: loopTrace Loop.workload iterationEvents 100000
    ++ [Event.store 0x2000 0x00]

/-- An initial state: memory and variables all zero, nothing recorded. -/
def zeroState : State :=
  State.mk (fun _ => 0) [] 0 (F32.finite false 0 (-149)) 0 (F32.finite false 0 (-149))

/-- State after `n` iterations of a loop from counter `j` whose body never faults and
acts as `g`. -/
def loopStates (l : Loop) (g : Int → State → State) : Nat → Int → State → State
  | 0, _, s => s
  | n + 1, j, s => loopStates l g n (j + 1) (g j (s.emit (Event.iter l j)))

/-- Events of `n` iterations of a loop from counter `j`, most recent first. -/
def loopLog (l : Loop) (evs : List Event) : Nat → Int → List Event
  | 0, _ => []
  | n + 1, j => loopLog l evs n (j + 1) ++ (evs.reverse ++ [Event.iter l j])

/-! ## Lemmas on the state and on the arithmetic of the workload -/

@[simp] theorem emit_mem (s : State) (e : Event) : (s.emit e).mem = s.mem := rfl

@[simp] theorem emit_log (s : State) (e : Event) : (s.emit e).log = e :: s.log := rfl

theorem trace_of_log (s s1 : State) (E : List Event) (h : s1.log = E.reverse ++ s.log) :
    s1.trace = s.trace ++ E := by
  simp [State.trace, h]

theorem produced_of_log (s s1 : State) (E : List Event) (h : s1.log = E.reverse ++ s.log) :
    produced s s1 = E := by
  simp [produced, trace_of_log s s1 E h]

theorem ofInt_1062 : F32.ofInt 1062 = F32.finite false 8699904 (-13) := by decide

theorem ofInt_2653 : F32.ofInt 2653 = F32.finite false 10866688 (-12) := by decide

theorem ofInt_12 : F32.ofInt 12 = F32.finite false 12582912 (-20) := by decide

theorem ofInt_2817486 : F32.ofInt 2817486 = F32.finite false 11269944 (-2) := by decide

theorem mul_A_B :
    F32.mul (F32.finite false 8699904 (-13)) (F32.finite false 10866688 (-12))
      = F32.finite false 11269944 (-2) := by decide

theorem toInt_product :
    F32.toInt (F32.finite false 11269944 (-2)) = Except.ok 2817486 := by decide

theorem mul_result_B :
    F32.mul (F32.finite false 11269944 (-2)) (F32.finite false 10866688 (-12))
      = F32.finite false 14599200 9 := by decide

theorem div_A_B :
    F32.div (F32.finite false 8699904 (-13)) (F32.finite false 10866688 (-12))
      = F32.finite false 13431891 (-25) := by decide

theorem mul_12_quotient :
    F32.mul (F32.finite false 12582912 (-20)) (F32.finite false 13431891 (-25))
      = F32.finite false 10073918 (-21) := by decide

/-- One execution of the workload block never faults: it leaves memory alone, records
`iterationEvents` and sets the four variables to fixed values. -/
theorem workBody_eq (j : Int) (s : State) :
    workBody j s = Except.ok (State.mk s.mem (iterationEvents.reverse ++ s.log) 1062
      (F32.finite false 10866688 (-12)) 2817486 (F32.finite false 10073918 (-21))) := by
  cases s
  unfold workBody
  simp only [intToFloat, ofInt_2653, State.setA, State.setB, State.emit, ofInt_1062]
  simp only [mulFloat, mul_A_B, State.emit]
  simp only [floatToInt, toInt_product, State.emit]
  simp only [bind, Except.bind, State.setResult, intToFloat, ofInt_2817486, State.emit,
    mul_result_B, State.setFpresult, ofInt_1062, div_A_B, divFloat, mulFloat, ofInt_12,
    mul_12_quotient, pure, Except.pure]
  rfl

/-! ## Lemmas on the loops -/

/-- A `for` loop whose body never faults and whose bound is an `int` runs to its exit:
started `n` iterations before the bound, it leaves with the counter equal to the bound. -/
theorem forLoop_eq (l : Loop) (bound : Int) (body : Int → State → Except Fault State)
    (g : Int → State → State) (hbody : ∀ j s, body j s = Except.ok (g j s))
    (hbound : bound ≤ INT_MAX) :
    ∀ (n : Nat) (j : Int) (s : State), j + n = bound →
      forLoop l bound body j s
        = Except.ok (bound, (loopStates l g n j s).emit (Event.exit l bound)) := by
  intro n
  induction n with
  | zero =>
    intro j s h
    have hj : j = bound := by simpa using h
    subst hj
    rw [forLoop]
    simp [loopStates]
  | succ n ih =>
    intro j s h
    have hlt : j < bound := by push_cast at h; omega
    have hov : ¬ INT_MAX < j + 1 := by omega
    rw [forLoop]
    simp only [hlt, dite_true, hbody, hov, if_false]
    rw [ih (j + 1) _ (by push_cast at h; omega)]
    rfl

theorem loopStates_mem (l : Loop) (g : Int → State → State)
    (hg : ∀ j s, (g j s).mem = s.mem) :
    ∀ (n : Nat) (j : Int) (s : State), (loopStates l g n j s).mem = s.mem := by
  intro n
  induction n with
  | zero => intro j s; rfl
  | succ n ih => intro j s; simp [loopStates, ih, hg]

theorem loopStates_log (l : Loop) (g : Int → State → State) (evs : List Event)
    (hg : ∀ j s, (g j s).log = evs.reverse ++ s.log) :
    ∀ (n : Nat) (j : Int) (s : State),
      (loopStates l g n j s).log = loopLog l evs n j ++ s.log := by
  intro n
  induction n with
  | zero => intro j s; rfl
  | succ n ih => intro j s; simp [loopStates, loopLog, ih, hg]

theorem loopLog_reverse (l : Loop) (evs : List Event) :
    ∀ (n : Nat) (j : Int),
      (loopLog l evs n j).reverse
        = (List.range n).flatMap (fun k => Event.iter l (j + (k : Int)) :: evs) := by
  intro n
  induction n with
  | zero => intro j; rfl
  | succ n ih =>
    intro j
    rw [List.range_succ_eq_map]
    simp only [loopLog, List.reverse_append, List.reverse_reverse, ih, List.flatMap_cons,
      List.flatMap_map, List.reverse_cons, List.reverse_nil, List.nil_append,
      List.singleton_append, List.cons_append, Nat.cast_zero, add_zero, List.cons.injEq,
      true_and, List.append_cancel_left_eq]
    congr 1
    funext k
    simp only [Function.comp, Nat.cast_succ]
    congr 2
    ring

/-- The complete run of a loop from counter `0` with a body that never faults, leaves
memory alone and records `evs`: the loop is left with the counter equal to the bound,
memory is unchanged and the events recorded are `loopTrace l evs n`. -/
theorem forLoop_run (l : Loop) (body : Int → State → Except Fault State)
    (g : Int → State → State) (evs : List Event)
    (hbody : ∀ j s, body j s = Except.ok (g j s))
    (hmem : ∀ j s, (g j s).mem = s.mem)
    (hlog : ∀ j s, (g j s).log = evs.reverse ++ s.log)
    (bound : Int) (n : Nat) (hb : bound = (n : Int)) (hn : bound ≤ INT_MAX) (s : State) :
    ∃ s1, forLoop l bound body 0 s = Except.ok (bound, s1)
      ∧ s1.mem = s.mem ∧ s1.log = (loopTrace l evs n).reverse ++ s.log := by
  subst hb
  refine ⟨_, forLoop_eq l n body g hbody hn n 0 s (by simp), ?_, ?_⟩
  · simp [loopStates_mem l g hmem]
  · have h := loopLog_reverse l evs n 0
    simp only [zero_add] at h
    simp only [emit_log, loopStates_log l g evs hlog, loopTrace, ← h, List.reverse_append,
      List.reverse_reverse, List.reverse_cons, List.reverse_nil, List.nil_append,
      List.singleton_append, List.cons_append]

/-! ## The run of `main` -/

theorem volatileStore_mem (addr v : Nat) (s : State) :
    (volatileStore addr v s).mem = fun a => if a = addr then v % UINT_RANGE else s.mem a :=
  rfl

theorem volatileStore_log (addr v : Nat) (s : State) :
    (volatileStore addr v s).log = Event.store addr (v % UINT_RANGE) :: s.log := rfl

theorem workBody_total (j : Int) (s : State) :
    workBody j s = Except.ok ((fun (_ : Int) (s : State) =>
      State.mk s.mem (iterationEvents.reverse ++ s.log) 1062
        (F32.finite false 10866688 (-12)) 2817486 (F32.finite false 10073918 (-21))) j s) :=
  workBody_eq j s

/-- Sequencing in `main`, for any two loops that run to their exit. -/
theorem main_seq (s s2 s4 : State) (loop1 loop2 : State → Except Fault (Int × State))
    (j2 j4 : Int)
    (h2 : loop1 (volatileStore 0x2000 0x00 s) = Except.ok (j2, s2))
    (h4 : loop2 (volatileStore 0x2000 0xFF s2) = Except.ok (j4, s4)) :
    (do
      let gDebugLedsMemoryMappedRegister : Nat := 0x2000
      let s := volatileStore gDebugLedsMemoryMappedRegister 0x00 s
      let (_, s) ← loop1 s
      let s := volatileStore gDebugLedsMemoryMappedRegister 0xFF s
      let (_, s) ← loop2 s
      let s := volatileStore gDebugLedsMemoryMappedRegister 0x00 s
      return ((0 : Int), s)) = Except.ok (0, volatileStore 0x2000 0x00 s4) := by
  simp only [h2, h4, bind, Except.bind, pure, Except.pure]

/-- Memory after the three stores of `main`, for loops that leave memory alone. -/
theorem main_mem (s s2 s4 : State)
    (m2 : s2.mem = (volatileStore 0x2000 0x00 s).mem)
    (m4 : s4.mem = (volatileStore 0x2000 0xFF s2).mem) :
    (volatileStore 0x2000 0x00 s4).mem = fun a => if a = 0x2000 then 0 else s.mem a := by
  funext a
  simp only [volatileStore_mem, m4, m2, UINT_RANGE]
  by_cases h : a = 0x2000 <;> simp [h]

/-- Events after the three stores of `main`, for loops that record `t1` and `t2`. -/
theorem main_log (s s2 s4 : State) (t1 t2 : List Event)
    (l2 : s2.log = t1.reverse ++ (volatileStore 0x2000 0x00 s).log)
    (l4 : s4.log = t2.reverse ++ (volatileStore 0x2000 0xFF s2).log) :
    (volatileStore 0x2000 0x00 s4).log
      = (Event.store 0x2000 0x00 :: t1 ++ Event.store 0x2000 0xFF :: t2
          ++ [Event.store 0x2000 0x00]).reverse ++ s.log := by
  simp [volatileStore_log, l4, l2, UINT_RANGE]

/-- The complete run of `main` from any state: it returns `0`, the register cell holds
`0`, every other cell is unchanged and the events recorded are `programTrace`. -/
theorem main_run (s : State) :
    ∃ s1, main s = Except.ok (0, s1)
      ∧ s1.mem = (fun a => if a = 0x2000 then 0 else s.mem a)
      ∧ s1.log = programTrace.reverse ++ s.log := by
  obtain ⟨s2, h2, m2, l2⟩ := forLoop_run Loop.busyWait emptyBody (fun _ s => s) []
    (fun _ _ => rfl) (fun _ _ => rfl) (fun _ _ => rfl) 1600000 1600000
    (Nat.cast_ofNat).symm (by unfold INT_MAX; omega) (volatileStore 0x2000 0x00 s)
  obtain ⟨s4, h4, m4, l4⟩ := forLoop_run Loop.workload workBody _ iterationEvents
    workBody_total (fun _ _ => rfl) (fun _ _ => rfl) 100000 100000
    (Nat.cast_ofNat).symm (by unfold INT_MAX; omega) (volatileStore 0x2000 0xFF s2)
  refine ⟨volatileStore 0x2000 0x00 s4, ?_, main_mem s s2 s4 m2 m4, ?_⟩
  · unfold main
    exact main_seq s s2 s4 _ _ _ _ h2 h4
  · unfold programTrace
    exact main_log s s2 s4 _ _ l2 l4

/-- The run of `main` in terms of the events it produces. -/
theorem main_produces (s : State) :
    ∃ s1, main s = Except.ok (0, s1)
      ∧ s1.mem = (fun a => if a = 0x2000 then 0 else s.mem a)
      ∧ produced s s1 = programTrace := by
  obtain ⟨s1, h, m, l⟩ := main_run s
  exact ⟨s1, h, m, produced_of_log s s1 programTrace l⟩

/-! ## Observations on the trace of a loop and of the program -/

theorem filterMap_flatMap_list {α β γ : Type} (f : β → Option γ) (g : α → List β) :
    ∀ (L : List α), (L.flatMap g).filterMap f = L.flatMap (fun k => (g k).filterMap f) := by
  intro L
  induction L with
  | nil => rfl
  | cons a L ih => simp [List.flatMap_cons, List.filterMap_append, ih]

theorem flatMap_nil_list {α β : Type} (g : α → List β) (hg : ∀ k, g k = []) :
    ∀ (L : List α), L.flatMap g = [] := by
  intro L
  induction L with
  | nil => rfl
  | cons a L ih => simp [List.flatMap_cons, hg, ih]

theorem flatMap_singleton_list {α β : Type} (g : α → List β) (h : α → β)
    (hg : ∀ k, g k = [h k]) :
    ∀ (L : List α), L.flatMap g = L.map h := by
  intro L
  induction L with
  | nil => rfl
  | cons a L ih => simp [List.flatMap_cons, hg, ih]

theorem filterMap_loopTrace {γ : Type} (f : Event → Option γ) (l : Loop)
    (evs : List Event) (n : Nat) :
    (loopTrace l evs n).filterMap f
      = (List.range n).flatMap (fun k => (Event.iter l (k : Int) :: evs).filterMap f)
        ++ [Event.exit l (n : Int)].filterMap f := by
  simp only [loopTrace, List.filterMap_append, filterMap_flatMap_list]

/-- A projection that drops loop entries, loop exits and the events of the body drops
the whole trace of the loop. -/
theorem filterMap_loopTrace_nil {γ : Type} (f : Event → Option γ) (l : Loop)
    (evs : List Event) (n : Nat) (hi : ∀ j, f (Event.iter l j) = none)
    (he : ∀ j, f (Event.exit l j) = none) (hevs : evs.filterMap f = []) :
    (loopTrace l evs n).filterMap f = [] := by
  rw [filterMap_loopTrace]
  have h1 : ∀ k : Nat, (Event.iter l (k : Int) :: evs).filterMap f = [] := by
    intro k
    simp [List.filterMap_cons, hi, hevs]
  rw [flatMap_nil_list _ h1]
  simp [List.filterMap_cons, he]

/-- A projection of the trace of the program that keeps only what the first loop
recorded. -/
theorem filterMap_bracket_left {γ : Type} (f : Event → Option γ) (a b c : Event)
    (t1 t2 : List Event) (r : List γ) (h1 : t1.filterMap f = r) (h2 : t2.filterMap f = [])
    (ha : f a = none) (hb : f b = none) (hc : f c = none) :
    (a :: t1 ++ b :: t2 ++ [c]).filterMap f = r := by
  simp [List.filterMap_append, List.filterMap_cons, h1, h2, ha, hb, hc]

/-- A projection of the trace of the program that keeps only what the second loop
recorded. -/
theorem filterMap_bracket_right {γ : Type} (f : Event → Option γ) (a b c : Event)
    (t1 t2 : List Event) (r : List γ) (h1 : t1.filterMap f = []) (h2 : t2.filterMap f = r)
    (ha : f a = none) (hb : f b = none) (hc : f c = none) :
    (a :: t1 ++ b :: t2 ++ [c]).filterMap f = r := by
  simp [List.filterMap_append, List.filterMap_cons, h1, h2, ha, hb, hc]

/-- A projection of the trace of the program that keeps only the three events outside
the loops. -/
theorem filterMap_bracket_marks {γ : Type} (f : Event → Option γ) (a b c : Event)
    (t1 t2 : List Event) (x y z : γ) (h1 : t1.filterMap f = []) (h2 : t2.filterMap f = [])
    (ha : f a = some x) (hb : f b = some y) (hc : f c = some z) :
    (a :: t1 ++ b :: t2 ++ [c]).filterMap f = [x, y, z] := by
  simp [List.filterMap_append, List.filterMap_cons, h1, h2, ha, hb, hc]

/-- A projection of the trace of the program that keeps nothing. -/
theorem filterMap_bracket_none {γ : Type} (f : Event → Option γ) (a b c : Event)
    (t1 t2 : List Event) (h1 : t1.filterMap f = []) (h2 : t2.filterMap f = [])
    (ha : f a = none) (hb : f b = none) (hc : f c = none) :
    (a :: t1 ++ b :: t2 ++ [c]).filterMap f = [] := by
  simp [List.filterMap_append, List.filterMap_cons, h1, h2, ha, hb, hc]

theorem stores_loopTrace (l : Loop) (evs : List Event) (n : Nat) (h : stores evs = []) :
    stores (loopTrace l evs n) = [] :=
  filterMap_loopTrace_nil _ l evs n (fun _ => rfl) (fun _ => rfl) h

theorem registerWrites_loopTrace (addr : Nat) (l : Loop) (evs : List Event) (n : Nat)
    (h : registerWrites addr evs = []) : registerWrites addr (loopTrace l evs n) = [] :=
  filterMap_loopTrace_nil _ l evs n (fun _ => rfl) (fun _ => rfl) h

theorem loads_loopTrace (l : Loop) (evs : List Event) (n : Nat) (h : loads evs = []) :
    loads (loopTrace l evs n) = [] :=
  filterMap_loopTrace_nil _ l evs n (fun _ => rfl) (fun _ => rfl) h

theorem iterCounters_loopTrace_self (l : Loop) (evs : List Event) (n : Nat)
    (h : iterCounters l evs = []) :
    iterCounters l (loopTrace l evs n)
      = List.map (fun (k : Nat) => (k : Int)) (List.range n) := by
  unfold iterCounters at h ⊢
  rw [filterMap_loopTrace]
  have h1 : ∀ k : Nat, (Event.iter l (k : Int) :: evs).filterMap (fun e => match e with
      | Event.iter l1 j => if l1 = l then some j else none
      | _ => none) = [(k : Int)] := by
    intro k
    simp [List.filterMap_cons, h]
  rw [flatMap_singleton_list _ (fun k : Nat => (k : Int)) h1]
  simp only [List.filterMap_cons, List.filterMap_nil, List.append_nil]

theorem exitCounters_loopTrace_self (l : Loop) (evs : List Event) (n : Nat)
    (h : exitCounters l evs = []) :
    exitCounters l (loopTrace l evs n) = [(n : Int)] := by
  unfold exitCounters at h ⊢
  rw [filterMap_loopTrace]
  have h1 : ∀ k : Nat, (Event.iter l (k : Int) :: evs).filterMap (fun e => match e with
      | Event.exit l1 j => if l1 = l then some j else none
      | _ => none) = [] := by
    intro k
    simp [List.filterMap_cons, h]
  rw [flatMap_nil_list _ h1]
  simp [List.filterMap_cons]

theorem iterCounters_loopTrace_other (l l1 : Loop) (evs : List Event) (n : Nat)
    (hl : l1 ≠ l) (h : iterCounters l evs = []) :
    iterCounters l (loopTrace l1 evs n) = [] :=
  filterMap_loopTrace_nil _ l1 evs n (fun _ => by simp [hl]) (fun _ => rfl) h

theorem exitCounters_loopTrace_other (l l1 : Loop) (evs : List Event) (n : Nat)
    (hl : l1 ≠ l) (h : exitCounters l evs = []) :
    exitCounters l (loopTrace l1 evs n) = [] :=
  filterMap_loopTrace_nil _ l1 evs n (fun _ => rfl) (fun _ => by simp [hl]) h

/-- A projection that drops loop entries and loop exits keeps, of the trace of a loop,
what it keeps of the events of the body, once per iteration. -/
theorem filterMap_loopTrace_body {γ : Type} (f : Event → Option γ) (l : Loop)
    (evs : List Event) (n : Nat) (hi : ∀ j, f (Event.iter l j) = none)
    (he : ∀ j, f (Event.exit l j) = none) :
    (loopTrace l evs n).filterMap f
      = List.flatMap (List.range n) (fun (_ : Nat) => evs.filterMap f) := by
  rw [filterMap_loopTrace]
  have h1 : (fun (k : Nat) => (Event.iter l (k : Int) :: evs).filterMap f)
      = (fun (_ : Nat) => evs.filterMap f) := by
    funext k
    simp [List.filterMap_cons, hi]
  rw [h1]
  simp [List.filterMap_cons, he]

theorem stores_iterationEvents : stores iterationEvents = [] := rfl

theorem registerWrites_iterationEvents (addr : Nat) :
    registerWrites addr iterationEvents = [] := rfl

theorem loads_iterationEvents : loads iterationEvents = [] := rfl

theorem iterCounters_iterationEvents (l : Loop) : iterCounters l iterationEvents = [] := rfl

theorem exitCounters_iterationEvents (l : Loop) : exitCounters l iterationEvents = [] := rfl

theorem stores_programTrace :
    stores programTrace = [(0x2000, 0x00), (0x2000, 0xFF), (0x2000, 0x00)] := by
  have h1 := stores_loopTrace Loop.busyWait [] 1600000 rfl
  have h2 := stores_loopTrace Loop.workload iterationEvents 100000 stores_iterationEvents
  unfold programTrace
  unfold stores at h1 h2 ⊢
  exact filterMap_bracket_marks _ _ _ _ _ _ _ _ _ h1 h2 rfl rfl rfl

theorem registerWrites_programTrace :
    registerWrites 0x2000 programTrace = [0x00, 0xFF, 0x00] := by
  have h1 := registerWrites_loopTrace 0x2000 Loop.busyWait [] 1600000 rfl
  have h2 := registerWrites_loopTrace 0x2000 Loop.workload iterationEvents 100000
    (registerWrites_iterationEvents 0x2000)
  unfold programTrace
  unfold registerWrites at h1 h2 ⊢
  exact filterMap_bracket_marks _ _ _ _ _ _ _ _ _ h1 h2 rfl rfl rfl

theorem loads_programTrace : loads programTrace = [] := by
  have h1 := loads_loopTrace Loop.busyWait [] 1600000 rfl
  have h2 := loads_loopTrace Loop.workload iterationEvents 100000 loads_iterationEvents
  unfold programTrace
  unfold loads at h1 h2 ⊢
  exact filterMap_bracket_none _ _ _ _ _ _ h1 h2 rfl rfl rfl

theorem iterCounters_busyWait_programTrace :
    iterCounters Loop.busyWait programTrace
      = List.map (fun (k : Nat) => (k : Int)) (List.range 1600000) := by
  have h1 := iterCounters_loopTrace_self Loop.busyWait [] 1600000 rfl
  have h2 := iterCounters_loopTrace_other Loop.busyWait Loop.workload iterationEvents 100000
    (by decide) (iterCounters_iterationEvents Loop.busyWait)
  unfold programTrace
  unfold iterCounters at h1 h2 ⊢
  exact filterMap_bracket_left _ _ _ _ _ _ _ h1 h2 rfl rfl rfl

theorem iterCounters_workload_programTrace :
    iterCounters Loop.workload programTrace
      = List.map (fun (k : Nat) => (k : Int)) (List.range 100000) := by
  have h1 := iterCounters_loopTrace_other Loop.workload Loop.busyWait [] 1600000
    (by decide) rfl
  have h2 := iterCounters_loopTrace_self Loop.workload iterationEvents 100000
    (iterCounters_iterationEvents Loop.workload)
  unfold programTrace
  unfold iterCounters at h1 h2 ⊢
  exact filterMap_bracket_right _ _ _ _ _ _ _ h1 h2 rfl rfl rfl

theorem exitCounters_busyWait_programTrace :
    exitCounters Loop.busyWait programTrace = [1600000] := by
  have h1 := exitCounters_loopTrace_self Loop.busyWait [] 1600000 rfl
  have h2 := exitCounters_loopTrace_other Loop.busyWait Loop.workload iterationEvents 100000
    (by decide) (exitCounters_iterationEvents Loop.busyWait)
  rw [Nat.cast_ofNat] at h1
  unfold programTrace
  unfold exitCounters at h1 h2 ⊢
  exact filterMap_bracket_left _ _ _ _ _ _ _ h1 h2 rfl rfl rfl

theorem exitCounters_workload_programTrace :
    exitCounters Loop.workload programTrace = [100000] := by
  have h1 := exitCounters_loopTrace_other Loop.workload Loop.busyWait [] 1600000
    (by decide) rfl
  have h2 := exitCounters_loopTrace_self Loop.workload iterationEvents 100000
    (exitCounters_iterationEvents Loop.workload)
  rw [Nat.cast_ofNat] at h2
  unfold programTrace
  unfold exitCounters at h1 h2 ⊢
  exact filterMap_bracket_right _ _ _ _ _ _ _ h1 h2 rfl rfl rfl

theorem arithEvents_iterationEvents :
    arithEvents iterationEvents
      = [ (ArithOp.floatMul, Value.float (F32.finite false 11269944 (-2))),
          (ArithOp.floatMul, Value.float (F32.finite false 14599200 9)),
          (ArithOp.floatDiv, Value.float (F32.finite false 13431891 (-25))),
          (ArithOp.floatMul, Value.float (F32.finite false 10073918 (-21))) ] := rfl

theorem intConversions_iterationEvents : intConversions iterationEvents = [2817486] := rfl

theorem arithEvents_programTrace :
    arithEvents programTrace
      = List.flatMap (List.range 100000) (fun (_ : Nat) => arithEvents iterationEvents) := by
  have h1 := filterMap_loopTrace_nil (fun e => match e with
      | Event.arith op v => some (op, v)
      | _ => none) Loop.busyWait [] 1600000 (fun _ => rfl) (fun _ => rfl) rfl
  have h2 := filterMap_loopTrace_body (fun e => match e with
      | Event.arith op v => some (op, v)
      | _ => none) Loop.workload iterationEvents 100000 (fun _ => rfl) (fun _ => rfl)
  unfold programTrace
  unfold arithEvents
  exact filterMap_bracket_right _ _ _ _ _ _ _ h1 h2 rfl rfl rfl

theorem intConversions_programTrace :
    intConversions programTrace
      = List.flatMap (List.range 100000) (fun (_ : Nat) => intConversions iterationEvents) := by
  have h1 := filterMap_loopTrace_nil (fun e => match e with
      | Event.conv (Value.int z) => some z
      | _ => none) Loop.busyWait [] 1600000 (fun _ => rfl) (fun _ => rfl) rfl
  have h2 := filterMap_loopTrace_body (fun e => match e with
      | Event.conv (Value.int z) => some z
      | _ => none) Loop.workload iterationEvents 100000 (fun _ => rfl) (fun _ => rfl)
  unfold programTrace
  unfold intConversions
  exact filterMap_bracket_right _ _ _ _ _ _ _ h1 h2 rfl rfl rfl

theorem mem_flatMap_const {α β : Type} (L : List α) (c : List β) (x : β)
    (h : x ∈ List.flatMap L (fun (_ : α) => c)) : x ∈ c := by
  rw [List.mem_flatMap] at h
  obtain ⟨_, _, hx⟩ := h
  exact hx

theorem store_mem_stores (t : List Event) (a v : Nat) (h : Event.store a v ∈ t) :
    (a, v) ∈ stores t := by
  unfold stores
  rw [List.mem_filterMap]
  exact ⟨Event.store a v, h, rfl⟩

theorem load_mem_loads (t : List Event) (a : Nat) (h : Event.load a ∈ t) : a ∈ loads t := by
  unfold loads
  rw [List.mem_filterMap]
  exact ⟨Event.load a, h, rfl⟩

/-! ## Replaying the stores of a trace on plain memory cells -/

theorem replay_append (m : Nat → Nat) (t1 t2 : List Event) :
    replay m (t1 ++ t2) = replay (replay m t1) t2 := by
  simp [replay, List.foldl_append]

theorem replay_of_stores_nil : ∀ (t : List Event) (m : Nat → Nat),
    stores t = [] → replay m t = m := by
  intro t
  induction t with
  | nil => intro m _; rfl
  | cons e t ih =>
    intro m h
    cases e with
    | store a v => simp [stores] at h
    | load a => exact ih m (by simpa [stores] using h)
    | iter l j => exact ih m (by simpa [stores] using h)
    | exit l j => exact ih m (by simpa [stores] using h)
    | conv v => exact ih m (by simpa [stores] using h)
    | arith op v => exact ih m (by simpa [stores] using h)

theorem replay_store (m : Nat → Nat) (a v : Nat) (t : List Event) :
    replay m (Event.store a v :: t) = replay (fun x => if x = a then v else m x) t := rfl

/-- Replay of a store followed by events without stores. -/
theorem replay_store_then (m : Nat → Nat) (a v : Nat) (t : List Event)
    (h : stores t = []) :
    replay m (Event.store a v :: t) = fun x => if x = a then v else m x := by
  rw [replay_store, replay_of_stores_nil t _ h]

/-- Replay of the three stores of the program around two stretches without stores. -/
theorem replay_bracket (m : Nat → Nat) (a x y z : Nat) (t1 t2 : List Event)
    (h1 : stores t1 = []) (h2 : stores t2 = []) :
    replay m (Event.store a x :: t1 ++ Event.store a y :: t2 ++ [Event.store a z])
      = fun k => if k = a then z else m k := by
  rw [replay_append, replay_append, replay_store_then m a x t1 h1,
    replay_store_then _ a y t2 h2, replay_store_then _ a z [] rfl]
  funext k
  by_cases hk : k = a <;> simp [hk]

theorem replay_programTrace (m : Nat → Nat) :
    replay m programTrace = fun k => if k = 0x2000 then 0 else m k := by
  unfold programTrace
  exact replay_bracket m 0x2000 0x00 0xFF 0x00 _ _
    (stores_loopTrace Loop.busyWait [] 1600000 rfl)
    (stores_loopTrace Loop.workload iterationEvents 100000 stores_iterationEvents)

/-! ## Shape lemmas used for the register cell -/

theorem bracket_split (a b c : Event) (t1 t2 : List Event) :
    a :: t1 ++ b :: t2 ++ [c] = (a :: t1) ++ b :: (t2 ++ [c]) := by
  simp

theorem registerWrites_store_then (addr x : Nat) (t : List Event)
    (h : registerWrites addr t = []) :
    registerWrites addr (Event.store addr x :: t) = [x] := by
  unfold registerWrites at h ⊢
  simp [List.filterMap_cons, h]

theorem registerWrites_then_store (addr z : Nat) (t : List Event)
    (h : registerWrites addr t = []) :
    registerWrites addr (t ++ [Event.store addr z]) = [z] := by
  unfold registerWrites at h ⊢
  simp [List.filterMap_append, List.filterMap_cons, h]

theorem replay_two_stores (m : Nat → Nat) (a x y : Nat) (t : List Event)
    (h : stores t = []) :
    replay m ((Event.store a x :: t) ++ [Event.store a y]) a = y := by
  rw [replay_append, replay_store_then m a x t h, replay_store_then _ a y [] rfl]
  simp

/-! ## The claims -/

/-- C1: for every initial state, `main` returns, the trace grows by the events `main`
produces, and these are exactly one store of `0x00` to the register at `0x2000`, then the
complete busy-wait loop (iterations `0` to `1599999` and the exit), then one store of
`0xFF`, then the complete workload loop (iterations `0` to `99999`, each with the events
of the block, and the exit), then one store of `0x00`; the stores of the run are exactly
`0x00`, `0xFF`, `0x00` at `0x2000`. -/
theorem C1_event_sequence (s : State) :
    ∃ s1, main s = Except.ok (0, s1)
      ∧ s1.trace = s.trace ++ produced s s1
      ∧ produced s s1
          = Event.store 0x2000 0x00 :: loopTrace Loop.busyWait [] 1600000
            ++ Event.store 0x2000 0xFF :: loopTrace Loop.workload iterationEvents 100000
            ++ [Event.store 0x2000 0x00]
      ∧ stores (produced s s1) = [(0x2000, 0x00), (0x2000, 0xFF), (0x2000, 0x00)] := by
  obtain ⟨s1, h, _, hl⟩ := main_run s
  have hp := produced_of_log s s1 programTrace hl
  refine ⟨s1, h, ?_, ?_, ?_⟩
  · rw [hp]
    exact trace_of_log s s1 programTrace hl
  · rw [hp]
    unfold programTrace
    rfl
  · rw [hp]
    exact stores_programTrace

/-- C2 as amended: with `A = 1062` and `B = 2653` the block never faults and the value
assigned to `result` is `2817486`, which is the integer product `1062 * 2653` and the
conversion to `int` of the single precision product of `A` and `B`. -/
theorem C2_product_value (j : Int) (s : State) :
    ∃ s1, workBody j s = Except.ok s1
      ∧ s1.result = 2817486
      ∧ (2817486 : Int) = 1062 * 2653
      ∧ F32.toInt (F32.mul (F32.ofInt 1062) (F32.ofInt 2653)) = Except.ok 2817486 := by
  refine ⟨_, workBody_eq j s, rfl, by decide, ?_⟩
  rw [ofInt_1062, ofInt_2653, mul_A_B, toInt_product]

/-- C2 as stated fails: in the first iteration from the all-zero state the value assigned
to `result` is not `2818486`. -/
theorem C2_counterexample :
    ¬ ∃ s1, workBody 0 zeroState = Except.ok s1 ∧ s1.result = 2818486 := by
  rintro ⟨s1, h, hr⟩
  rw [workBody_eq] at h
  injection h with h
  subst h
  revert hr
  decide

/-- C3: with the register as a plain memory cell, whatever the cell held before, after
`main` the cell holds `0x00`; the values written to it are exactly `0x00`, `0xFF`, `0x00`
in this order; the final memory is the replay of the stores of the trace; and the trace
splits at the store of `0xFF` into a part with the single write `0x00` before it and a
part with the single write `0x00` after it, the cell holding `0xFF` in between. -/
theorem C3_register_cell (s : State) :
    ∃ s1, main s = Except.ok (0, s1)
      ∧ s1.mem 0x2000 = 0x00
      ∧ registerWrites 0x2000 (produced s s1) = [0x00, 0xFF, 0x00]
      ∧ replay s.mem (produced s s1) = s1.mem
      ∧ ∃ t1 t2, produced s s1 = t1 ++ Event.store 0x2000 0xFF :: t2
          ∧ registerWrites 0x2000 t1 = [0x00]
          ∧ registerWrites 0x2000 t2 = [0x00]
          ∧ replay s.mem (t1 ++ [Event.store 0x2000 0xFF]) 0x2000 = 0xFF := by
  obtain ⟨s1, h, hm, hp⟩ := main_produces s
  refine ⟨s1, h, ?_, ?_, ?_, ?_⟩
  · rw [hm]
    simp
  · rw [hp]
    exact registerWrites_programTrace
  · rw [hp, hm]
    exact replay_programTrace s.mem
  · refine ⟨Event.store 0x2000 0x00 :: loopTrace Loop.busyWait [] 1600000,
      loopTrace Loop.workload iterationEvents 100000 ++ [Event.store 0x2000 0x00],
      ?_, ?_, ?_, ?_⟩
    · rw [hp]
      unfold programTrace
      exact bracket_split _ _ _ _ _
    · exact registerWrites_store_then 0x2000 0x00 _
        (registerWrites_loopTrace 0x2000 Loop.busyWait [] 1600000 rfl)
    · exact registerWrites_then_store 0x2000 0x00 _
        (registerWrites_loopTrace 0x2000 Loop.workload iterationEvents 100000
          (registerWrites_iterationEvents 0x2000))
    · exact replay_two_stores s.mem 0x2000 0x00 0xFF _
        (stores_loopTrace Loop.busyWait [] 1600000 rfl)

/-- C4: for every initial state `main` returns the exit status `0`: it never ends in a
fault and it returns no other value. -/
theorem C4_exit_status (s : State) :
    (∃ s1, main s = Except.ok (0, s1))
      ∧ (∀ f, main s ≠ Except.error f)
      ∧ (∀ v s1, main s = Except.ok (v, s1) → v = 0) := by
  obtain ⟨s1, h, _, _⟩ := main_run s
  refine ⟨⟨s1, h⟩, ?_, ?_⟩
  · intro f hf
    rw [h] at hf
    cases hf
  · intro v s2 hv
    rw [h] at hv
    injection hv with hv
    injection hv with hv _
    exact hv.symm

/-- C5: for every iteration count `N` with `0 ≤ N ≤ INT_MAX` the busy-wait loop
`for (j = 0; j < N; j++) ;` runs to its exit, enters its body exactly `N` times, with the
counters `0, 1, ..., N - 1`, and leaves `j` equal to `N`, without touching memory; and in
`main` the busy-wait loop enters its body exactly `1600000` times and is left with `j`
equal to `1600000`. -/
theorem C5_busy_wait_iterations (N : Int) (s : State) (h0 : 0 ≤ N) (h1 : N ≤ INT_MAX) :
    (∃ s1, forLoop Loop.busyWait N emptyBody 0 s = Except.ok (N, s1)
      ∧ produced s s1 = loopTrace Loop.busyWait [] N.toNat
      ∧ iterCounters Loop.busyWait (produced s s1)
          = List.map (fun (k : Nat) => (k : Int)) (List.range N.toNat)
      ∧ ((iterCounters Loop.busyWait (produced s s1)).length : Int) = N
      ∧ s1.mem = s.mem)
    ∧ (∃ s1, main s = Except.ok (0, s1)
      ∧ (iterCounters Loop.busyWait (produced s s1)).length = 1600000
      ∧ exitCounters Loop.busyWait (produced s s1) = [1600000]) := by
  constructor
  · obtain ⟨s1, h, hm, hl⟩ := forLoop_run Loop.busyWait emptyBody (fun _ s => s) []
      (fun _ _ => rfl) (fun _ _ => rfl) (fun _ _ => rfl) N N.toNat
      (Int.toNat_of_nonneg h0).symm h1 s
    have hp := produced_of_log s s1 _ hl
    have hc := iterCounters_loopTrace_self Loop.busyWait [] N.toNat rfl
    refine ⟨s1, h, hp, ?_, ?_, hm⟩
    · rw [hp]
      exact hc
    · rw [hp, hc, List.length_map, List.length_range]
      exact Int.toNat_of_nonneg h0
  · obtain ⟨s1, h, _, hp⟩ := main_produces s
    refine ⟨s1, h, ?_, ?_⟩
    · rw [hp, iterCounters_busyWait_programTrace, List.length_map, List.length_range]
    · rw [hp]
      exact exitCounters_busyWait_programTrace

/-- C5 at `N = 3` from the all-zero state. -/
theorem C5_busy_wait_iterations_witness :
    (0 : Int) ≤ 3 ∧ (3 : Int) ≤ INT_MAX
    ∧ (∃ s1, forLoop Loop.busyWait 3 emptyBody 0 zeroState = Except.ok (3, s1)
      ∧ produced zeroState s1 = loopTrace Loop.busyWait [] (3 : Int).toNat
      ∧ iterCounters Loop.busyWait (produced zeroState s1)
          = List.map (fun (k : Nat) => (k : Int)) (List.range (3 : Int).toNat)
      ∧ ((iterCounters Loop.busyWait (produced zeroState s1)).length : Int) = 3
      ∧ s1.mem = zeroState.mem)
    ∧ (∃ s1, main zeroState = Except.ok (0, s1)
      ∧ (iterCounters Loop.busyWait (produced zeroState s1)).length = 1600000
      ∧ exitCounters Loop.busyWait (produced zeroState s1) = [1600000]) :=
  ⟨by decide, by decide,
    C5_busy_wait_iterations 3 zeroState (by decide) (by decide)⟩

theorem map_flatMap_const {α β γ : Type} (f : β → γ) (c : List β) :
    ∀ (L : List α), List.map f (List.flatMap L (fun (_ : α) => c))
      = List.flatMap L (fun (_ : α) => List.map f c) := by
  intro L
  induction L with
  | nil => rfl
  | cons a L ih => simp [List.flatMap_cons, ih]

theorem arithOps_programTrace :
    arithOps programTrace
      = List.flatMap (List.range 100000) (fun (_ : Nat) =>
          [ArithOp.floatMul, ArithOp.floatMul, ArithOp.floatDiv, ArithOp.floatMul]) := by
  unfold arithOps
  rw [arithEvents_programTrace, map_flatMap_const]
  rfl

/-- C6, the code run from the all-zero state: the workload loop of `main` enters its body
exactly `100000` times, and already in the first iteration the binary arithmetic operators
evaluated by the block are, in order, a `float` multiplication (`A * B`, whose result is
then converted to `int` for `result`), a `float` multiplication, a `float` division and a
`float` multiplication; no integer multiplication is evaluated, in the block or in the
whole run. -/
theorem C6_workload_operators :
    (∃ s1, workBody 0 zeroState = Except.ok s1
      ∧ arithOps (produced zeroState s1)
          = [ArithOp.floatMul, ArithOp.floatMul, ArithOp.floatDiv, ArithOp.floatMul]
      ∧ arithOps (produced zeroState s1)
          ≠ [ArithOp.intMul, ArithOp.floatMul, ArithOp.floatDiv, ArithOp.floatMul]
      ∧ ArithOp.intMul ∉ arithOps (produced zeroState s1))
    ∧ (∃ s1, main zeroState = Except.ok (0, s1)
      ∧ (iterCounters Loop.workload (produced zeroState s1)).length = 100000
      ∧ arithOps (produced zeroState s1)
          = List.flatMap (List.range 100000) (fun (_ : Nat) =>
              [ArithOp.floatMul, ArithOp.floatMul, ArithOp.floatDiv, ArithOp.floatMul])
      ∧ ArithOp.intMul ∉ arithOps (produced zeroState s1)) := by
  constructor
  · have hp := produced_of_log zeroState
      (State.mk zeroState.mem (iterationEvents.reverse ++ zeroState.log) 1062
        (F32.finite false 10866688 (-12)) 2817486 (F32.finite false 10073918 (-21)))
      iterationEvents rfl
    refine ⟨_, workBody_eq 0 zeroState, ?_, ?_, ?_⟩
    · rw [hp]; rfl
    · rw [hp]; decide
    · rw [hp]; decide
  · obtain ⟨s1, h, _, hp⟩ := main_produces zeroState
    refine ⟨s1, h, ?_, ?_, ?_⟩
    · rw [hp, iterCounters_workload_programTrace, List.length_map, List.length_range]
    · rw [hp]
      exact arithOps_programTrace
    · rw [hp, arithOps_programTrace]
      intro hmem
      have h2 := mem_flatMap_const _ _ _ hmem
      revert h2
      decide

/-- C7: the workload block is pure.  For any two counters and any two states (any memory,
any values left in the variables, any events recorded before) the block never faults and
computes the same `result`, the same `fpresult`, the same `A` and `B`, and records the same
conversions and operator results, and it leaves memory as it is; and in the run of `main`
the operator results and the values converted to `int` are those of one block, repeated
for each of the `100000` iterations. -/
theorem C7_workload_pure (j1 j2 : Int) (s1 s2 : State) :
    (∃ r1 r2, workBody j1 s1 = Except.ok r1 ∧ workBody j2 s2 = Except.ok r2
      ∧ r1.result = r2.result ∧ r1.fpresult = r2.fpresult
      ∧ r1.A = r2.A ∧ r1.B = r2.B
      ∧ produced s1 r1 = produced s2 r2
      ∧ r1.mem = s1.mem ∧ r2.mem = s2.mem)
    ∧ (∃ r, main s1 = Except.ok (0, r)
      ∧ arithEvents (produced s1 r)
          = List.flatMap (List.range 100000) (fun (_ : Nat) => arithEvents iterationEvents)
      ∧ intConversions (produced s1 r)
          = List.flatMap (List.range 100000) (fun (_ : Nat) => [2817486])) := by
  constructor
  · refine ⟨_, _, workBody_eq j1 s1, workBody_eq j2 s2, rfl, rfl, rfl, rfl, ?_, rfl, rfl⟩
    rw [produced_of_log s1 _ iterationEvents rfl, produced_of_log s2 _ iterationEvents rfl]
  · obtain ⟨r, h, _, hp⟩ := main_produces s1
    refine ⟨r, h, ?_, ?_⟩
    · rw [hp]
      exact arithEvents_programTrace
    · rw [hp, intConversions_programTrace, intConversions_iterationEvents]

/-- C8: for every initial state, the stores of `main` are three stores to address
`0x2000`, so every store targets `0x2000` with value `0x00` or `0xFF`; `main` performs no
load; and every cell at an address other than `0x2000` holds after `main` what it held
before. -/
theorem C8_frame (s : State) :
    ∃ s1, main s = Except.ok (0, s1)
      ∧ stores (produced s s1) = [(0x2000, 0x00), (0x2000, 0xFF), (0x2000, 0x00)]
      ∧ (∀ a v, Event.store a v ∈ produced s s1 → a = 0x2000 ∧ (v = 0x00 ∨ v = 0xFF))
      ∧ loads (produced s s1) = []
      ∧ (∀ a, Event.load a ∉ produced s s1)
      ∧ (∀ a, a ≠ 0x2000 → s1.mem a = s.mem a) := by
  obtain ⟨s1, h, hm, hp⟩ := main_produces s
  have hs : stores (produced s s1) = [(0x2000, 0x00), (0x2000, 0xFF), (0x2000, 0x00)] := by
    rw [hp]
    exact stores_programTrace
  have hl : loads (produced s s1) = [] := by
    rw [hp]
    exact loads_programTrace
  refine ⟨s1, h, hs, ?_, hl, ?_, ?_⟩
  · intro a v hav
    have hmem := store_mem_stores _ a v hav
    rw [hs] at hmem
    simp only [List.mem_cons, Prod.mk.injEq, List.mem_singleton] at hmem
    rcases hmem with ⟨ha, hv⟩ | ⟨ha, hv⟩ | ⟨ha, hv⟩ | hfalse
    · exact ⟨ha, Or.inl hv⟩
    · exact ⟨ha, Or.inr hv⟩
    · exact ⟨ha, Or.inl hv⟩
    · cases hfalse
  · intro a ha
    have hmem := load_mem_loads _ a ha
    rw [hl] at hmem
    cases hmem
  · intro a ha
    rw [hm]
    simp [ha]

theorem mem_map_cast_range (n : Nat) (j : Int)
    (h : j ∈ List.map (fun (k : Nat) => (k : Int)) (List.range n)) : 0 ≤ j ∧ j < (n : Int) := by
  rw [List.mem_map] at h
  obtain ⟨k, hk, rfl⟩ := h
  rw [List.mem_range] at hk
  exact ⟨Int.natCast_nonneg k, by exact_mod_cast hk⟩

theorem toRat_product :
    F32.toRat (F32.finite false 11269944 (-2)) = some ((1062 : ℚ) * 2653) := by
  norm_num [F32.toRat]

theorem toRat_second_product :
    F32.toRat (F32.finite false 14599200 9) = some (7474790400 : ℚ) := by
  norm_num [F32.toRat]

theorem toInt_second_product :
    F32.toInt (F32.finite false 14599200 9) = Except.error Fault.floatToIntRange := by
  decide

/-- C9: no integer operation of `main` overflows `int` and the conversion to `int` is
exact.  `main` never faults; the counter of the busy-wait loop stays in `[0, 1600000]` and
that of the workload loop in `[0, 100000]`, both below `INT_MAX`; the single precision
product of `A = 1062` and `B = 2653` is exactly `1062 * 2653`, which is below `2 ^ 24` and
within `int`, and every conversion to `int` in the run yields exactly that integer; the
second product `result * B`, of exact value `7474790358 > INT_MAX`, is a `float`
multiplication whose result `7474790400` is out of the range of `int` (its conversion
would be a fault), and it is never converted: every binary operator of the run has a
`float` result and every conversion to `int` yields `1062 * 2653`. -/
theorem C9_no_overflow (s : State) :
    (∃ s1, main s = Except.ok (0, s1)
      ∧ (∀ j ∈ iterCounters Loop.busyWait (produced s s1), 0 ≤ j ∧ j < 1600000)
      ∧ exitCounters Loop.busyWait (produced s s1) = [1600000]
      ∧ (∀ j ∈ iterCounters Loop.workload (produced s s1), 0 ≤ j ∧ j < 100000)
      ∧ exitCounters Loop.workload (produced s s1) = [100000]
      ∧ (∀ z ∈ intConversions (produced s s1), z = 1062 * 2653)
      ∧ (∀ p ∈ arithEvents (produced s s1), ∃ f, p.2 = Value.float f))
    ∧ (∀ f, main s ≠ Except.error f)
    ∧ ((1600000 : Int) ≤ INT_MAX ∧ (100000 : Int) ≤ INT_MAX)
    ∧ F32.toRat (F32.mul (F32.ofInt 1062) (F32.ofInt 2653)) = some ((1062 : ℚ) * 2653)
    ∧ ((1062 : ℚ) * 2653 < 2 ^ 24)
    ∧ F32.toInt (F32.mul (F32.ofInt 1062) (F32.ofInt 2653)) = Except.ok (1062 * 2653)
    ∧ (INT_MIN ≤ 1062 * 2653 ∧ (1062 : Int) * 2653 ≤ INT_MAX)
    ∧ ((1062 : Int) * 2653 * 2653 = 7474790358 ∧ INT_MAX < 7474790358)
    ∧ F32.toRat (F32.mul (F32.ofInt (1062 * 2653)) (F32.ofInt 2653))
        = some (7474790400 : ℚ)
    ∧ F32.toInt (F32.mul (F32.ofInt (1062 * 2653)) (F32.ofInt 2653))
        = Except.error Fault.floatToIntRange := by
  obtain ⟨s1, h, _, hp⟩ := main_produces s
  have e : (1062 : Int) * 2653 = 2817486 := by decide
  refine ⟨⟨s1, h, ?_, ?_, ?_, ?_, ?_, ?_⟩, ?_, ⟨by decide, by decide⟩, ?_, by norm_num, ?_,
    ⟨by decide, by decide⟩, ⟨by decide, by decide⟩, ?_, ?_⟩
  · intro j hj
    rw [hp, iterCounters_busyWait_programTrace] at hj
    have hj2 := mem_map_cast_range 1600000 j hj
    rw [Nat.cast_ofNat] at hj2
    exact hj2
  · rw [hp]
    exact exitCounters_busyWait_programTrace
  · intro j hj
    rw [hp, iterCounters_workload_programTrace] at hj
    have hj2 := mem_map_cast_range 100000 j hj
    rw [Nat.cast_ofNat] at hj2
    exact hj2
  · rw [hp]
    exact exitCounters_workload_programTrace
  · intro z hz
    rw [hp, intConversions_programTrace, intConversions_iterationEvents] at hz
    have hz2 := mem_flatMap_const _ _ _ hz
    rw [List.mem_singleton] at hz2
    rw [hz2, e]
  · intro p hp2
    rw [hp, arithEvents_programTrace] at hp2
    have hp3 := mem_flatMap_const _ _ _ hp2
    rw [arithEvents_iterationEvents] at hp3
    simp only [List.mem_cons, List.mem_singleton] at hp3
    rcases hp3 with h1 | h1 | h1 | h1 | h1
    · exact ⟨_, by rw [h1]⟩
    · exact ⟨_, by rw [h1]⟩
    · exact ⟨_, by rw [h1]⟩
    · exact ⟨_, by rw [h1]⟩
    · cases h1
  · intro f hf
    rw [h] at hf
    cases hf
  · rw [ofInt_1062, ofInt_2653, mul_A_B]
    exact toRat_product
  · rw [ofInt_1062, ofInt_2653, mul_A_B, toInt_product, e]
  · rw [e, ofInt_2817486, ofInt_2653, mul_result_B]
    exact toRat_second_product
  · rw [e, ofInt_2817486, ofInt_2653, mul_result_B]
    exact toInt_second_product

/-- C10: `main` terminates from every initial state.  In each loop the counter starts at
`0`, goes up by one per iteration and stays below the bound: the busy-wait loop enters its
body with the counters `0, ..., 1599999`, the workload loop with `0, ..., 99999`, in total
`1700000` iterations; and the events of the run, hence this count, are the same for any
two initial states. -/
theorem C10_termination (s t : State) :
    ∃ s1 t1, main s = Except.ok (0, s1) ∧ main t = Except.ok (0, t1)
      ∧ iterCounters Loop.busyWait (produced s s1)
          = List.map (fun (k : Nat) => (k : Int)) (List.range 1600000)
      ∧ iterCounters Loop.workload (produced s s1)
          = List.map (fun (k : Nat) => (k : Int)) (List.range 100000)
      ∧ (iterCounters Loop.busyWait (produced s s1)).length
          + (iterCounters Loop.workload (produced s s1)).length = 1700000
      ∧ produced s s1 = produced t t1 := by
  obtain ⟨s1, hs, _, hps⟩ := main_produces s
  obtain ⟨t1, ht, _, hpt⟩ := main_produces t
  refine ⟨s1, t1, hs, ht, ?_, ?_, ?_, ?_⟩
  · rw [hps]
    exact iterCounters_busyWait_programTrace
  · rw [hps]
    exact iterCounters_workload_programTrace
  · rw [hps, iterCounters_busyWait_programTrace, iterCounters_workload_programTrace,
      List.length_map, List.length_map, List.length_range, List.length_range]
  · rw [hps, hpt]

end Benchmark2
